import Mathlib

/-!
Shallow embedding of the message-handling and peer-state core of the
data clock consensus engine: transaction staging (handleTokenRequest),
the peer registry (handleDataPeerListAnnounce), the frame admission
pipeline (handleClockFrame), the outbound publisher (publishMessage,
publishProof, autononce.Add) and the tx demultiplexer gate
(runTxMessageHandler).  Go byte slices are modelled as lists of
naturals, Go maps as association lists, and external collaborators
(poseidon, Ed448, pubsub, the time reel, the frame prover) as explicit
environment records of functions.  Side effects on collaborators are
made visible as explicit action traces.
-/

namespace Spec2Proof

/-- Go byte slices are modelled as lists of naturals. -/
abbrev Bytes := List Nat

/-- Go bytes.Compare: lexicographic byte-wise comparison, a proper
prefix compares below the longer slice. -/
def bytesCompare : Bytes → Bytes → Ordering
  | [], [] => Ordering.eq
  | [], _ :: _ => Ordering.lt
  | _ :: _, [] => Ordering.gt
  | a :: as1, b :: bs =>
      if a < b then Ordering.lt
      else if b < a then Ordering.gt
      else bytesCompare as1 bs

/-- Go binary.BigEndian.AppendUint64: the eight big-endian bytes of
n mod 2^64. -/
def beUInt64 (n : Nat) : Bytes :=
  [n / 2 ^ 56 % 256, n / 2 ^ 48 % 256, n / 2 ^ 40 % 256, n / 2 ^ 32 % 256,
   n / 2 ^ 24 % 256, n / 2 ^ 16 % 256, n / 2 ^ 8 % 256, n % 256]

/-- Go uint64(i) on an int64 value: two-complement reinterpretation,
i.e. i mod 2^64. -/
def intToUInt64 (i : Int) : Nat :=
  (i % (2 ^ 64 : Int)).toNat

/-! ## Token requests and transaction staging (message_handler.go, handleTokenRequest) -/

/-- A coin reference; only the address is consulted by the core. -/
structure Coin where
  address : Bytes
deriving DecidableEq, Repr

/-- The request variants of protobufs.TokenRequest, keeping exactly the
fields the staging deduplicator reads: coin addresses, proof byte
strings and the key values of the Ed448 public key signatures. -/
inductive TokenRequestBody
  | transfer (ofCoin : Coin)
  | split (ofCoin : Coin)
  | merge (coins : List Coin)
  | mint (proofs : List Bytes)
  | announce (signerKeys : List Bytes)
  | join (signerKey : Bytes)
  | leave (signerKey : Bytes)
  | pause (signerKey : Bytes)
  | resume (signerKey : Bytes)
deriving DecidableEq, Repr

/-- protobufs.TokenRequest: a variant body plus the nonce field written
by the autononce package. -/
structure TokenRequest where
  request : TokenRequestBody
  nonce : Bytes := []
deriving DecidableEq, Repr

/-- The per-variant collision predicate of handleTokenRequest, staged
request t against incoming request r, transcribed switch arm by switch
arm.  The split arm reproduces the source exactly: the source compares
r.Split.OfCoin.Address with r.Split.OfCoin.Address (itself), not with
the staged address. -/
def collides (t r : TokenRequestBody) : Bool :=
  match t, r with
  | TokenRequestBody.transfer tc, TokenRequestBody.transfer rc =>
      rc.address == tc.address
  | TokenRequestBody.split _, TokenRequestBody.split rc =>
      rc.address == rc.address
  | TokenRequestBody.merge tcs, TokenRequestBody.merge rcs =>
      tcs.any (fun ti => rcs.any (fun rj => ti.address == rj.address))
  | TokenRequestBody.mint tps, TokenRequestBody.mint rps =>
      tps.any (fun ti =>
        decide (rps.length < 2) && rps.any (fun rj => ti == rj))
  | TokenRequestBody.announce tks, TokenRequestBody.announce rks =>
      tks.any (fun ti => rks.any (fun rj => ti == rj))
  | TokenRequestBody.join tk, TokenRequestBody.join rk => tk == rk
  | TokenRequestBody.leave tk, TokenRequestBody.leave rk => tk == rk
  | TokenRequestBody.pause tk, TokenRequestBody.pause rk => tk == rk
  | TokenRequestBody.resume tk, TokenRequestBody.resume rk => tk == rk
  | _, _ => false

/-- The staging-relevant state of the engine: whether
frameProverTries[0].Contains(provingKeyAddress) holds, and the staged
transactions (none models the nil slice before lazy initialization). -/
structure StagingState where
  inTrie : Bool
  staged : Option (List TokenRequest)
deriving DecidableEq, Repr

/-- handleTokenRequest: when the local prover address is in the first
trie, lazily initialize the staged list, scan every staged request for
a collision with the incoming transition, and append the transition
only when no collision was found. -/
def handleTokenRequest (s : StagingState) (transition : TokenRequest) :
    StagingState :=
  if s.inTrie then
    let reqs := s.staged.getD []
    let found := reqs.any (fun ti => collides ti.request transition.request)
    if found then { s with staged := some reqs }
    else { s with staged := some (reqs ++ [transition]) }
  else s

/-! ## Peer registry (message_handler.go, handleDataPeerListAnnounce) -/

/-- protobufs.DataPeer, keeping the fields the handler reads.  The
publicKey, signature and version fields are nilable byte slices and so
are modelled as Option. -/
structure DataPeer where
  peerId : Bytes
  multiaddr : String
  maxFrame : Nat
  timestamp : Int
  version : Option Bytes
  signature : Option Bytes
  publicKey : Option Bytes
  totalDistance : Bytes
deriving DecidableEq, Repr

/-- The peerInfo record stored in the peer map. -/
structure PeerInfo where
  peerId : Bytes
  multiaddr : String
  maxFrame : Nat
  direct : Bool
  lastSeen : Int
  timestamp : Int
  version : Option Bytes
  signature : Option Bytes
  publicKey : Option Bytes
  totalDistance : Bytes
deriving DecidableEq, Repr

/-- The peer map keyed by the peer id bytes, as an association list. -/
abbrev PeerMap := List (Bytes × PeerInfo)

/-- Lookup in the peer map (first binding wins, as for a Go map where
keys are unique). -/
def pmLookup (k : Bytes) : PeerMap → Option PeerInfo
  | [] => none
  | (k2, v) :: m => if k2 = k then some v else pmLookup k m

/-- Go map assignment: bind k to v, shadowing any previous binding. -/
def pmStore (k : Bytes) (v : PeerInfo) (m : PeerMap) : PeerMap :=
  (k, v) :: m.filter (fun kv => kv.1 ≠ k)

/-- Observable calls the announce handler makes on the pubsub scoring
interface. -/
inductive RegAction
  | setScore (peerId : Bytes) (score : Int)
deriving DecidableEq, Repr

/-- The collaborators and configuration consulted by
handleDataPeerListAnnounce: the own peer id, the Ed448 primitives
(unmarshal success, peer-id match and signature verification, over the
raw key bytes), the minimum version and its cutoff instant in
milliseconds, the uncooperative set, the multiaddr lookup and the
current unix time used for lastSeen. -/
structure RegEnv where
  selfPeerId : Bytes
  ed448Unmarshal : Bytes → Bool
  matchesPublicKey : Bytes → Bytes → Bool
  verify : Bytes → Bytes → Bytes → Bool
  minimumVersion : Bytes
  cutoffMilli : Int
  uncooperative : Bytes → Bool
  multiaddrOf : Bytes → String
  nowUnix : Int

/-- The signing message reconstructed by the handler:
BigEndian(u64 maxFrame) || version bytes || BigEndian(u64 timestamp). -/
def announceSigningMsg (maxFrame : Nat) (version : Bytes) (timestamp : Int) :
    Bytes :=
  beUInt64 maxFrame ++ version ++ beUInt64 (intToUInt64 timestamp)

/-- The peerInfo built at the insertion point of the handler. -/
def mkPeerInfo (env : RegEnv) (senderPeerId : Bytes) (multiaddr : String)
    (p : DataPeer) : PeerInfo :=
  { peerId := p.peerId
    multiaddr := multiaddr
    maxFrame := p.maxFrame
    direct := p.peerId = senderPeerId
    lastSeen := env.nowUnix
    timestamp := p.timestamp
    version := p.version
    signature := p.signature
    publicKey := p.publicKey
    totalDistance := p.totalDistance }

/-- The tail of the per-record loop body, from the uncooperative check
onward: score the peer +10, then apply the monotonic replacement rules
against any existing entry and store the new record. -/
def afterValidation (env : RegEnv) (senderPeerId : Bytes) (m : PeerMap)
    (p : DataPeer) : List RegAction × PeerMap :=
  if env.uncooperative p.peerId then ([], m)
  else
    let multiaddr := env.multiaddrOf p.peerId
    let acts := [RegAction.setScore p.peerId 10]
    match pmLookup p.peerId m with
    | some existing =>
        if existing.signature.isSome ∧ p.signature = none then (acts, m)
        else if existing.publicKey.isSome ∧ p.publicKey = none then (acts, m)
        else if existing.version.isSome ∧ p.version = none then (acts, m)
        else if existing.timestamp > p.timestamp then (acts, m)
        else (acts, pmStore p.peerId (mkPeerInfo env senderPeerId multiaddr p) m)
    | none => (acts, pmStore p.peerId (mkPeerInfo env senderPeerId multiaddr p) m)

/-- One iteration of the record loop of handleDataPeerListAnnounce:
skip own records, skip records about peers other than the sender, skip
records missing a key, signature or version, run the Ed448 validation
and the version gate, then fall through to the insertion logic. -/
def processRecord (env : RegEnv) (senderPeerId : Bytes) (m : PeerMap)
    (p : DataPeer) : List RegAction × PeerMap :=
  if p.peerId = env.selfPeerId then ([], m)
  else if p.peerId ≠ senderPeerId then ([], m)
  else
    match p.publicKey, p.signature, p.version with
    | some pubKey, some sig, some ver =>
        if ¬ env.ed448Unmarshal pubKey then ([], m)
        else if ¬ env.matchesPublicKey p.peerId pubKey then ([], m)
        else if ¬ env.verify pubKey
            (announceSigningMsg p.maxFrame ver p.timestamp) sig then ([], m)
        else if bytesCompare ver env.minimumVersion = Ordering.lt ∧
            p.timestamp > env.cutoffMilli then
          ([RegAction.setScore p.peerId (-1000000)], m)
        else afterValidation env senderPeerId m p
    | _, _, _ => ([], m)

/-- handleDataPeerListAnnounce: fold the per-record step over the
announced peer list, accumulating score actions and threading the peer
map. -/
def handleDataPeerListAnnounce (env : RegEnv) (senderPeerId : Bytes)
    (m : PeerMap) (peerList : List DataPeer) : List RegAction × PeerMap :=
  peerList.foldl
    (fun acc p =>
      let r := processRecord env senderPeerId acc.2 p
      (acc.1 ++ r.1, r.2))
    ([], m)

/-! ## Frame admission pipeline (message_handler.go, handleClockFrame) -/

/-- protobufs.ClockFrame, keeping the fields the handler reads: the
frame number, the filter and the key value of the Ed448 public key
signature of the signer. -/
structure ClockFrame where
  frameNumber : Nat
  filter : Bytes
  signerPublicKey : Bytes
deriving DecidableEq, Repr

/-- Observable calls handleClockFrame makes on the frame prover and the
time reel. -/
inductive FrameAction
  | verifyCall (frame : ClockFrame)
  | headCall
  | insertCall (frame : ClockFrame) (isSync : Bool)
deriving DecidableEq, Repr

/-- Collaborators of handleClockFrame: the poseidon hash (total here;
the hash of a key value never fails on these inputs), membership in
GetFrameProverTries()[0], the verdict of
frameProver.VerifyDataClockFrame, and the frame number of the time-reel
head (the head read is presumed to succeed; on failure the source
panics). -/
structure FrameEnv where
  poseidonHash : Bytes → Bytes
  trieContains : Bytes → Bool
  verifyFrame : ClockFrame → Bool
  headFrameNumber : Nat

/-- handleClockFrame on a non-nil frame: hash the signer key, skip
silently when the address is not in the first prover trie, verify the
frame and return an error on failure, read the time-reel head, and
insert the frame exactly when its number is above the head. -/
def handleClockFrame (env : FrameEnv) (frame : ClockFrame) :
    Except String Unit × List FrameAction :=
  let addr := env.poseidonHash frame.signerPublicKey
  if ¬ env.trieContains addr then (Except.ok (), [])
  else if ¬ env.verifyFrame frame then
    (Except.error "handle clock frame data", [FrameAction.verifyCall frame])
  else if frame.frameNumber > env.headFrameNumber then
    (Except.ok (),
     [FrameAction.verifyCall frame, FrameAction.headCall,
      FrameAction.insertCall frame false])
  else
    (Except.ok (), [FrameAction.verifyCall frame, FrameAction.headCall])

/-! ## Tx demultiplexer gate (message_handler.go, runTxMessageHandler) -/

/-- The syncing status of the engine. -/
inductive SyncStatus
  | notSyncing
  | awaitingResponse
  | syncing
deriving DecidableEq, Repr

/-- The state runTxMessageHandler consults before handing a message to
the execution engines: trie membership of the local proving key
address, the syncing status, and the registered engine names. -/
structure TxEnv where
  inTrie : Bool
  syncingStatus : SyncStatus
  engines : List String

/-- Observable effect of one tx-loop iteration: a ProcessMessage call
on a named execution engine. -/
inductive TxAction
  | processMessage (engine : String)
deriving DecidableEq, Repr

/-- One iteration of runTxMessageHandler on an inbound tx message,
where decodeOk models whether proto.Unmarshal of the wrapper Message
succeeded: only when the local proving key address is in
frameProverTries[0] and the status is SyncStatusNotSyncing is the
message forwarded to every execution engine. -/
def runTxMessageStep (env : TxEnv) (decodeOk : Bool) : List TxAction :=
  if ¬ decodeOk then []
  else if env.inTrie ∧ env.syncingStatus = SyncStatus.notSyncing then
    env.engines.map TxAction.processMessage
  else []

/-! ## Outbound publisher (broadcast_messaging.go, autononce.go) -/

/-- The payload types the outbound path handles.  peerListAnnounce and
other payloads are carried opaquely: the publisher only inspects
whether the payload is a TokenRequest. -/
inductive ProtoMessage
  | tokenRequest (t : TokenRequest)
  | clockFrame (f : ClockFrame)
  | peerListAnnounce (d : Bytes)
  | other (tag : Nat) (d : Bytes)
deriving DecidableEq, Repr

/-- autononce.AddTokenRequest: overwrite the nonce field with the fresh
32 random bytes read from crypto/rand, which are passed here as an
explicit argument. -/
def addTokenRequest (freshNonce : Bytes) (request : TokenRequest) :
    TokenRequest :=
  { request with nonce := freshNonce }

/-- autononce.Add: when the payload is a TokenRequest, clone it and set
a fresh nonce on the clone (the clone is what makes the function a pure
value transformation: the caller value keeps its old nonce); any other
payload is returned unchanged. -/
def autononceAdd (freshNonce : Bytes) (message : ProtoMessage) :
    ProtoMessage :=
  match message with
  | ProtoMessage.tokenRequest t =>
      ProtoMessage.tokenRequest (addTokenRequest freshNonce t)
  | m => m

/-- Length-prefixed byte-string encoding, standing in for one
length-delimited protobuf field. -/
def encodeBytes (b : Bytes) : Bytes := b.length :: b

/-- Length-prefixed encoding of a list of byte strings. -/
def encodeBytesList (l : List Bytes) : Bytes :=
  l.length :: l.foldr (fun b acc => encodeBytes b ++ acc) []

/-- Wire encoding of a token request body: a variant tag followed by
the length-prefixed fields, standing in for the protobuf encoding of
the request oneof. -/
def marshalBody : TokenRequestBody → Bytes
  | TokenRequestBody.transfer c => 1 :: encodeBytes c.address
  | TokenRequestBody.split c => 2 :: encodeBytes c.address
  | TokenRequestBody.merge cs => 3 :: encodeBytesList (cs.map Coin.address)
  | TokenRequestBody.mint ps => 4 :: encodeBytesList ps
  | TokenRequestBody.announce ks => 5 :: encodeBytesList ks
  | TokenRequestBody.join k => 6 :: encodeBytes k
  | TokenRequestBody.leave k => 7 :: encodeBytes k
  | TokenRequestBody.pause k => 8 :: encodeBytes k
  | TokenRequestBody.resume k => 9 :: encodeBytes k

/-- Wire encoding of an anypb.Any wrapper after the type-URL rewrite:
a numeric tag standing in for the types.quilibrium.com type URL,
followed by the length-prefixed marshaled message.  For a TokenRequest
the nonce is one more length-prefixed field after the body. -/
def marshalAny : ProtoMessage → Bytes
  | ProtoMessage.tokenRequest t =>
      1 :: (encodeBytes (marshalBody t.request) ++ encodeBytes t.nonce)
  | ProtoMessage.clockFrame f =>
      2 :: (encodeBytes (beUInt64 f.frameNumber) ++ encodeBytes f.filter ++
        encodeBytes f.signerPublicKey)
  | ProtoMessage.peerListAnnounce d => 3 :: encodeBytes d
  | ProtoMessage.other tag d => (4 + tag) :: encodeBytes d

/-- The protobufs.Message envelope built by publishMessage. -/
structure Envelope where
  hash : Bytes
  address : Bytes
  payload : Bytes
deriving DecidableEq, Repr

/-- Collaborators of the outbound path: the poseidon hash of the
marshaled payload, the local proving key address placed in the
envelope, the publish verdicts of the pubsub per filter, and the info
and frame topic filters. -/
structure OutEnv where
  poseidonHash : Bytes → Bytes
  provingKeyAddress : Bytes
  publishToBitmask : Bytes → Bytes → Except String Unit
  infoFilter : Bytes
  frameFilter : Bytes

/-- The envelope publishMessage builds: autononce, marshal to Any with
the rewritten type URL, hash the payload with poseidon, and wrap with
the proving key address. -/
def buildEnvelope (env : OutEnv) (freshNonce : Bytes)
    (message : ProtoMessage) : Envelope :=
  let message := autononceAdd freshNonce message
  let payload := marshalAny message
  let h := env.poseidonHash payload
  { hash := h, address := env.provingKeyAddress, payload := payload }

/-- Wire encoding of the envelope itself (proto.Marshal of the
protobufs.Message). -/
def marshalEnvelope (e : Envelope) : Bytes :=
  encodeBytes e.hash ++ encodeBytes e.address ++ encodeBytes e.payload

/-- publishMessage: build the envelope and hand its marshaled bytes to
pubSub.PublishToBitmask for the given filter, returning the publish
result. -/
def publishMessage (env : OutEnv) (freshNonce : Bytes) (filter : Bytes)
    (message : ProtoMessage) : Except String Unit :=
  env.publishToBitmask filter (marshalEnvelope (buildEnvelope env freshNonce message))

/-- The outcome of publishProof: the value it returns to its caller
together with the results of the two publish attempts it made, info
publish first, frame publish second. -/
structure PublishProofOutcome where
  returned : Except String Unit
  infoPublish : Except String Unit
  framePublish : Except String Unit
deriving Repr

/-- publishProof on a frame, with the self-announce list payload passed
in as built from the local peer state: the info publish error is only
logged, the frame publish result is discarded (the source drops the
return value of the second publishMessage call), and nil is returned. -/
def publishProof (env : OutEnv) (announce : Bytes) (frame : ClockFrame) :
    PublishProofOutcome :=
  let infoRes :=
    publishMessage env [] env.infoFilter (ProtoMessage.peerListAnnounce announce)
  let frameRes :=
    publishMessage env [] env.frameFilter (ProtoMessage.clockFrame frame)
  { returned := Except.ok (), infoPublish := infoRes, framePublish := frameRes }

/-! ## Theorems -/

/-- C1: the source marks two staged/incoming Split requests as
colliding even when their coin addresses differ (it compares the
incoming address with itself), so a Split over a coin address different
from every already-staged Split is NOT appended: with a Split over
address [1] staged, an incoming Split over address [2] leaves the
staged list unchanged, contradicting the claimed same-address-only
collision rule. -/
theorem C1_split_collision_eval :
    collides (TokenRequestBody.split ⟨[1]⟩) (TokenRequestBody.split ⟨[2]⟩)
        = true ∧
    handleTokenRequest
        ⟨true, some [⟨TokenRequestBody.split ⟨[1]⟩, []⟩]⟩
        ⟨TokenRequestBody.split ⟨[2]⟩, []⟩ =
      ⟨true, some [⟨TokenRequestBody.split ⟨[1]⟩, []⟩]⟩ := by
  constructor
  · rfl
  · decide

/-- C4: for every clock frame whose poseidon-hashed signer public key
is absent from the first prover trie, handleClockFrame returns success
and makes no collaborator call at all: in particular no
frameProver.VerifyDataClockFrame call and no time-reel call. -/
theorem C4_trie_gate (env : FrameEnv) (frame : ClockFrame)
    (h : env.trieContains (env.poseidonHash frame.signerPublicKey) = false) :
    handleClockFrame env frame = (Except.ok (), []) := by
  unfold handleClockFrame
  simp [h]

/-- C4 witness: a concrete frame whose signer is outside the trie is
skipped with success and an empty action trace. -/
theorem C4_trie_gate_witness :
    handleClockFrame
        { poseidonHash := id, trieContains := fun _ => false,
          verifyFrame := fun _ => true, headFrameNumber := 0 }
        ⟨7, [3], [5]⟩ = (Except.ok (), []) :=
  C4_trie_gate _ _ rfl

/-- C5: for every frame that is in the trie and verifies, the time-reel
insert (with isSync false) happens exactly when the frame number
strictly exceeds the head frame number. -/
theorem C5_insert_iff (env : FrameEnv) (frame : ClockFrame)
    (h1 : env.trieContains (env.poseidonHash frame.signerPublicKey) = true)
    (h2 : env.verifyFrame frame = true) :
    (FrameAction.insertCall frame false ∈ (handleClockFrame env frame).2 ↔
      frame.frameNumber > env.headFrameNumber) := by
  unfold handleClockFrame
  by_cases hgt : env.headFrameNumber < frame.frameNumber
  · simp [h1, h2, hgt]
  · simp [h1, h2, hgt]

/-- C5 witness: with head frame number 5, a verified in-trie frame
numbered 6 is inserted, matching 6 > 5. -/
theorem C5_insert_iff_witness :
    (FrameAction.insertCall ⟨6, [], [4]⟩ false ∈
      (handleClockFrame
        { poseidonHash := id, trieContains := fun _ => true,
          verifyFrame := fun _ => true, headFrameNumber := 5 }
        ⟨6, [], [4]⟩).2 ↔ 6 > 5) :=
  C5_insert_iff _ _ rfl rfl

/-- C10: a decoded tx message is forwarded to an execution engine if
and only if the decode succeeded, the local proving key address is in
the first prover trie, the engine is registered, and the syncing status
is SyncStatusNotSyncing; in particular no message reaches any engine
while the node is syncing. -/
theorem C10_tx_gate (env : TxEnv) (decodeOk : Bool) (engine : String) :
    (TxAction.processMessage engine ∈ runTxMessageStep env decodeOk ↔
      (decodeOk = true ∧ env.inTrie = true ∧
        env.syncingStatus = SyncStatus.notSyncing ∧ engine ∈ env.engines)) := by
  rcases env with ⟨inTrie, st, engs⟩
  cases decodeOk <;> cases inTrie <;> cases st <;>
    simp [runTxMessageStep, List.mem_map]

/-- Concrete registry environment whose Ed448 collaborators accept
everything, with minimum version [2] and cutoff instant 10. -/
def regEnvPermissive : RegEnv :=
  { selfPeerId := [9]
    ed448Unmarshal := fun _ => true
    matchesPublicKey := fun _ _ => true
    verify := fun _ _ _ => true
    minimumVersion := [2]
    cutoffMilli := 10
    uncooperative := fun _ => false
    multiaddrOf := fun _ => ""
    nowUnix := 100 }

/-- Concrete registry environment whose signature verification rejects
everything. -/
def regEnvRejectSig : RegEnv :=
  { regEnvPermissive with verify := fun _ _ _ => false }

/-- A validated announcement record for peer [1] with timestamp 5 and
max frame 2. -/
def peerRecEq : DataPeer :=
  { peerId := [1], multiaddr := "", maxFrame := 2, timestamp := 5,
    version := some [2], signature := some [7], publicKey := some [8],
    totalDistance := [] }

/-- An existing registry entry for peer [1] with the same timestamp 5
but max frame 1. -/
def peerInfoOld : PeerInfo :=
  { peerId := [1], multiaddr := "", maxFrame := 1, direct := true,
    lastSeen := 0, timestamp := 5, version := some [2],
    signature := some [7], publicKey := some [8], totalDistance := [] }

/-- C2 counterexample: an announcement whose timestamp EQUALS the
stored timestamp (so is less than or equal to it) does replace the
stored record: the handler only skips when the existing timestamp is
strictly greater, so the claimed strictly-greater replacement rule
fails at equality. -/
theorem C2_counterexample :
    peerRecEq.timestamp = peerInfoOld.timestamp ∧
    (handleDataPeerListAnnounce regEnvPermissive [1]
        [([1], peerInfoOld)] [peerRecEq]).2 ≠ [([1], peerInfoOld)] := by
  constructor
  · rfl
  · decide

/-- Helper: the insertion tail keeps the map unchanged when the
announced timestamp is strictly below the stored one. -/
theorem afterValidation_snd_stale (env : RegEnv) (sender : Bytes)
    (m : PeerMap) (p : DataPeer) (ex : PeerInfo)
    (hex : pmLookup p.peerId m = some ex)
    (hts : p.timestamp < ex.timestamp) :
    (afterValidation env sender m p).2 = m := by
  unfold afterValidation
  split
  · rfl
  · split
    · rename_i existing heq
      rw [hex] at heq
      injection heq with heq2
      subst heq2
      split_ifs <;> rfl
    · rename_i heq
      rw [hex] at heq
      exact Option.noConfusion heq

/-- Helper: the per-record step keeps the map unchanged when the
announced timestamp is strictly below the stored one. -/
theorem processRecord_snd_stale (env : RegEnv) (sender : Bytes)
    (m : PeerMap) (p : DataPeer) (ex : PeerInfo)
    (hex : pmLookup p.peerId m = some ex)
    (hts : p.timestamp < ex.timestamp) :
    (processRecord env sender m p).2 = m := by
  unfold processRecord
  split
  · rfl
  · split
    · rfl
    · split
      · split
        · rfl
        · split
          · rfl
          · split
            · rfl
            · split
              · rfl
              · exact afterValidation_snd_stale env sender m p ex hex hts
      · rfl

/-- C2 amended: a stored record is replaced only by an announcement
with greater-or-equal timestamp; an announcement carrying a timestamp
strictly below the existing timestamp leaves the peer map unchanged. -/
theorem C2_amended (env : RegEnv) (sender : Bytes) (m : PeerMap)
    (p : DataPeer) (ex : PeerInfo)
    (hex : pmLookup p.peerId m = some ex)
    (hts : p.timestamp < ex.timestamp) :
    (handleDataPeerListAnnounce env sender m [p]).2 = m := by
  simpa [handleDataPeerListAnnounce] using
    processRecord_snd_stale env sender m p ex hex hts

/-- An announcement record for peer [1] with timestamp 4, strictly
below the stored timestamp 5. -/
def peerRecStale : DataPeer :=
  { peerRecEq with timestamp := 4 }

/-- C2 amended witness: a concrete stale announcement (timestamp 4
against stored timestamp 5) leaves the map unchanged. -/
theorem C2_amended_witness :
    (handleDataPeerListAnnounce regEnvPermissive [1]
        [([1], peerInfoOld)] [peerRecStale]).2 = [([1], peerInfoOld)] :=
  C2_amended regEnvPermissive [1] [([1], peerInfoOld)] peerRecStale peerInfoOld
    (by decide) (by decide)

/-- C6: for a record that passes signature validation and whose
version is lexicographically below the minimum version, a timestamp
strictly above the cutoff instant yields the -1000000 score and no
insertion, while a timestamp at or below the cutoff proceeds to
insertion (here witnessed on a cooperative peer with no prior entry:
the record is stored and the score raised by 10). -/
theorem C6_version_gate (env : RegEnv) (sender : Bytes) (m : PeerMap)
    (p : DataPeer) (pubKey sig ver : Bytes)
    (hpk : p.publicKey = some pubKey) (hsg : p.signature = some sig)
    (hvr : p.version = some ver)
    (hself : p.peerId ≠ env.selfPeerId) (hsend : p.peerId = sender)
    (hum : env.ed448Unmarshal pubKey = true)
    (hmatch : env.matchesPublicKey p.peerId pubKey = true)
    (hverify : env.verify pubKey
      (announceSigningMsg p.maxFrame ver p.timestamp) sig = true)
    (hlt : bytesCompare ver env.minimumVersion = Ordering.lt) :
    (p.timestamp > env.cutoffMilli →
      processRecord env sender m p =
        ([RegAction.setScore p.peerId (-1000000)], m)) ∧
    (p.timestamp ≤ env.cutoffMilli →
      env.uncooperative p.peerId = false →
      pmLookup p.peerId m = none →
      processRecord env sender m p =
        ([RegAction.setScore p.peerId 10],
         pmStore p.peerId
           (mkPeerInfo env sender (env.multiaddrOf p.peerId) p) m)) := by
  constructor
  · intro hcut
    unfold processRecord
    rw [if_neg hself, if_neg (by simpa using hsend), hpk, hsg, hvr]
    simp only [hum, hmatch, hverify, Bool.not_true, if_neg, ite_false,
      not_true_eq_false, if_false]
    rw [if_pos ⟨hlt, hcut⟩]
  · intro hcut huncoop hnone
    unfold processRecord
    rw [if_neg hself, if_neg (by simpa using hsend), hpk, hsg, hvr]
    simp only [hum, hmatch, hverify, Bool.not_true, not_true_eq_false,
      if_false]
    rw [if_neg (by exact fun hc => absurd hc.2 (not_lt.mpr hcut))]
    unfold afterValidation
    rw [if_neg (by simp [huncoop]), hnone]

/-- A validated record for peer [1] with outdated version [1] and
timestamp 11, above the cutoff 10. -/
def peerRecOutdatedLate : DataPeer :=
  { peerRecEq with version := some [1], timestamp := 11 }

/-- A validated record for peer [1] with outdated version [1] and
timestamp 5, at or below the cutoff 10. -/
def peerRecOutdatedEarly : DataPeer :=
  { peerRecEq with version := some [1], timestamp := 5 }

/-- C6 witness: with minimum version [2] and cutoff 10, the outdated
record with timestamp 11 is penalized with score -1000000 and not
stored, while the outdated record with timestamp 5 is stored and
scored +10. -/
theorem C6_version_gate_witness :
    processRecord regEnvPermissive [1] [] peerRecOutdatedLate =
      ([RegAction.setScore peerRecOutdatedLate.peerId (-1000000)], []) ∧
    processRecord regEnvPermissive [1] [] peerRecOutdatedEarly =
      ([RegAction.setScore peerRecOutdatedEarly.peerId 10],
       pmStore peerRecOutdatedEarly.peerId
         (mkPeerInfo regEnvPermissive [1]
           (regEnvPermissive.multiaddrOf peerRecOutdatedEarly.peerId)
           peerRecOutdatedEarly) []) :=
  ⟨(C6_version_gate regEnvPermissive [1] [] peerRecOutdatedLate [8] [7] [1]
      rfl rfl rfl (by decide) rfl rfl rfl rfl (by decide)).1 (by decide),
   (C6_version_gate regEnvPermissive [1] [] peerRecOutdatedEarly [8] [7] [1]
      rfl rfl rfl (by decide) rfl rfl rfl rfl (by decide)).2
     (by decide) rfl rfl⟩

/-- C7: an announcement record whose Ed448 signature does not verify
over BigEndian(u64 maxFrame) || version || BigEndian(u64 timestamp)
produces no action (in particular no +10 score) and leaves the peer
map unchanged. -/
theorem C7_bad_signature (env : RegEnv) (sender : Bytes) (m : PeerMap)
    (p : DataPeer) (pubKey sig ver : Bytes)
    (hpk : p.publicKey = some pubKey) (hsg : p.signature = some sig)
    (hvr : p.version = some ver)
    (hverify : env.verify pubKey
      (announceSigningMsg p.maxFrame ver p.timestamp) sig = false) :
    processRecord env sender m p = ([], m) := by
  unfold processRecord
  split
  · rfl
  · split
    · rfl
    · simp only [hpk, hsg, hvr]
      split
      · rfl
      · split
        · rfl
        · rw [if_pos (by simp [hverify])]

/-- C7 witness: under a rejecting verifier, a concrete fully-populated
record yields no action and an unchanged map. -/
theorem C7_bad_signature_witness :
    processRecord regEnvRejectSig [1] [] peerRecEq = ([], []) :=
  C7_bad_signature regEnvRejectSig [1] [] peerRecEq [8] [7] [2]
    rfl rfl rfl rfl

/-- C8: a record whose peer id differs from the sender peer id is
skipped entirely: no action and no peer map change. -/
theorem C8_sender_only (env : RegEnv) (sender : Bytes) (m : PeerMap)
    (p : DataPeer) (h : p.peerId ≠ sender) :
    processRecord env sender m p = ([], m) := by
  unfold processRecord
  split
  · rfl
  · rfl

/-- C8 witness: a record about peer [1] sent by peer [2] is ignored. -/
theorem C8_sender_only_witness :
    processRecord regEnvPermissive [2] [] peerRecEq = ([], []) :=
  C8_sender_only regEnvPermissive [2] [] peerRecEq (by decide)

/-- Concrete outbound environment whose pubsub fails exactly on the
frame filter [2]. -/
def outEnvFrameFail : OutEnv :=
  { poseidonHash := id
    provingKeyAddress := [0]
    publishToBitmask := fun filter _ =>
      if filter = [2] then Except.error "pub" else Except.ok ()
    infoFilter := [1]
    frameFilter := [2] }

/-- C3 counterexample: with a pubsub that fails the frame-filter
publish, publishProof still returns success instead of returning the
frame publish error to its caller: the source discards the return
value of the second publishMessage call. -/
theorem C3_counterexample :
    (publishProof outEnvFrameFail [] ⟨1, [], []⟩).framePublish =
      Except.error "pub" ∧
    (publishProof outEnvFrameFail [] ⟨1, [], []⟩).returned =
      Except.ok () := by
  constructor
  · rfl
  · rfl

/-- C3 amended: publishProof swallows a failure of the info-filter
self-announce publish, and also swallows a failure of the frame-filter
publish: it attempts both publishes and returns success regardless of
either result. -/
theorem C3_amended (env : OutEnv) (announce : Bytes) (frame : ClockFrame) :
    (publishProof env announce frame).returned = Except.ok () ∧
    (publishProof env announce frame).infoPublish =
      publishMessage env [] env.infoFilter
        (ProtoMessage.peerListAnnounce announce) ∧
    (publishProof env announce frame).framePublish =
      publishMessage env [] env.frameFilter (ProtoMessage.clockFrame frame) :=
  ⟨rfl, rfl, rfl⟩

/-- C9: publishMessage adds the fresh 32-byte nonce exactly to
TokenRequest payloads, as a pure value transformation (the source
clones before writing the nonce, so the caller value is untouched);
two envelopes built from the same TokenRequest with distinct nonces
have distinct marshaled payloads, and distinct hashes whenever the
hash is injective; non-TokenRequest payloads pass through unchanged. -/
theorem C9_autononce (env : OutEnv) (t : TokenRequest) (n1 n2 : Bytes)
    (hne : n1 ≠ n2) (hinj : Function.Injective env.poseidonHash)
    (msg : ProtoMessage) (hmsg : ∀ u, msg ≠ ProtoMessage.tokenRequest u) :
    autononceAdd n1 (ProtoMessage.tokenRequest t) =
      ProtoMessage.tokenRequest { request := t.request, nonce := n1 } ∧
    autononceAdd n1 msg = msg ∧
    (buildEnvelope env n1 (ProtoMessage.tokenRequest t)).payload ≠
      (buildEnvelope env n2 (ProtoMessage.tokenRequest t)).payload ∧
    (buildEnvelope env n1 (ProtoMessage.tokenRequest t)).hash ≠
      (buildEnvelope env n2 (ProtoMessage.tokenRequest t)).hash := by
  have hpay : (buildEnvelope env n1 (ProtoMessage.tokenRequest t)).payload ≠
      (buildEnvelope env n2 (ProtoMessage.tokenRequest t)).payload := by
    intro h
    have h0 : (1 :: (encodeBytes (marshalBody t.request) ++ encodeBytes n1)
        : Bytes) =
        1 :: (encodeBytes (marshalBody t.request) ++ encodeBytes n2) := h
    injection h0 with _ h1
    have h2 := congrArg
      (List.drop (encodeBytes (marshalBody t.request)).length) h1
    rw [List.drop_left, List.drop_left] at h2
    injection h2 with _ h3
    exact hne h3
  refine ⟨rfl, ?_, hpay, ?_⟩
  · cases msg with
    | tokenRequest u => exact absurd rfl (hmsg u)
    | clockFrame f => rfl
    | peerListAnnounce d => rfl
    | other tag d => rfl
  · intro h
    exact hpay (hinj h)

/-- A token request fixture for the nonce-freshness witness. -/
def tokenReqW : TokenRequest := { request := TokenRequestBody.join [5] }

/-- A 32-byte all-zero nonce. -/
def nonceA : Bytes := List.replicate 32 0

/-- A 32-byte all-one nonce. -/
def nonceB : Bytes := List.replicate 32 1

/-- A non-TokenRequest payload fixture. -/
def frameMsgW : ProtoMessage := ProtoMessage.clockFrame ⟨1, [], []⟩

/-- Concrete outbound environment with an injective (identity) hash
and an always-succeeding pubsub. -/
def outEnvId : OutEnv :=
  { poseidonHash := id
    provingKeyAddress := [0]
    publishToBitmask := fun _ _ => Except.ok ()
    infoFilter := [1]
    frameFilter := [2] }

/-- C9 witness: with the identity hash, two concrete distinct 32-byte
nonces on the same join request give distinct payloads and distinct
hashes, the nonce is set on the TokenRequest, and a clock-frame payload
passes through unchanged. -/
theorem C9_autononce_witness :
    autononceAdd nonceA (ProtoMessage.tokenRequest tokenReqW) =
      ProtoMessage.tokenRequest
        { request := tokenReqW.request, nonce := nonceA } ∧
    autononceAdd nonceA frameMsgW = frameMsgW ∧
    (buildEnvelope outEnvId nonceA (ProtoMessage.tokenRequest tokenReqW)).payload ≠
      (buildEnvelope outEnvId nonceB (ProtoMessage.tokenRequest tokenReqW)).payload ∧
    (buildEnvelope outEnvId nonceA (ProtoMessage.tokenRequest tokenReqW)).hash ≠
      (buildEnvelope outEnvId nonceB (ProtoMessage.tokenRequest tokenReqW)).hash :=
  C9_autononce outEnvId tokenReqW nonceA nonceB (by decide)
    (fun _ _ hh => hh) frameMsgW (fun u hh => ProtoMessage.noConfusion hh)

end Spec2Proof
